import Mathlib

/-!
# Shallow embedding of `src/lib/photo_organizer.py` (class `PhotoOrganizer`)

This file models the pure core of the photo organizer: timestamp resolution
(`get_best_datetime`), the scan/deduplication loop (`process_single_file` /
`scan_photos`), event clustering (`group_photos_into_events`), event naming
(`create_event_name`, `get_dominant_location`) and the move planner
(`organize_photos`), and proves the claimed properties about them.

Modelling conventions:
* Python `datetime` values are a record of calendar fields; subtraction and
  comparison go through an absolute second count computed exactly as CPython's
  `datetime.toordinal` does (proleptic Gregorian calendar).  `timedelta.days`
  is floor division of the signed second difference by 86400 (`Int.fdiv`).
* Python paths are records `(dir, stem, ext)`; `Path.name = stem ++ ext`.
* GPS coordinates are pairs of rationals.  The haversine comparison
  `calculate_distance(a, b) <= geo_radius_km` of the source is floating-point
  trigonometry; it is abstracted as a Boolean parameter `near` so that the
  clustering control flow is proved for every geometric predicate.
* The dominant-location threshold `count >= max(1, len(photos) * 0.3)` is
  embedded in the exact integer form `max 10 (3 * len) ≤ 10 * count`, which
  coincides with the Python float comparison for every feasible list length;
  the bridge to the rational form `max 1 (3/10 * len) ≤ count` is proved in
  `dominantThreshold_iff`.
* The thread pool of `scan_photos` completes tasks in nondeterministic order;
  the scan is modelled as a sequential pass in discovery order, which is the
  order the deduplication claim is stated in.
-/

namespace PhotoOrg

/-- Calendar timestamp, mirroring Python `datetime.datetime` (validated fields
are the caller's responsibility, as in CPython). -/
structure DateTime where
  year : Nat
  month : Nat
  day : Nat
  hour : Nat
  minute : Nat
  second : Nat
deriving DecidableEq, Repr

/-- Gregorian leap-year rule (CPython `calendar.isleap`). -/
def isLeapYear (y : Nat) : Bool :=
  y % 4 == 0 && (y % 100 != 0 || y % 400 == 0)

/-- Days in a month (CPython `calendar.monthrange`). -/
def daysInMonth (y m : Nat) : Nat :=
  if m = 2 then (if isLeapYear y then 29 else 28)
  else if m = 4 ∨ m = 6 ∨ m = 9 ∨ m = 11 then 30
  else 31

/-- Days in the years before `y` (CPython `datetime._days_before_year`). -/
def daysBeforeYear (y : Nat) : Nat :=
  let n := y - 1
  n * 365 + n / 4 - n / 100 + n / 400

/-- Days in year `y` before month `m` (CPython `datetime._days_before_month`). -/
def daysBeforeMonth (y m : Nat) : Nat :=
  (List.range (m - 1)).foldl (fun acc i => acc + daysInMonth y (i + 1)) 0

/-- Proleptic-Gregorian ordinal of a date (CPython `datetime.toordinal`). -/
def toOrdinal (t : DateTime) : Nat :=
  daysBeforeYear t.year + daysBeforeMonth t.year t.month + t.day

/-- Absolute second count of a timestamp; Python `datetime` comparison and
subtraction agree with this count on valid datetimes. -/
def dtSec (t : DateTime) : Nat :=
  toOrdinal t * 86400 + t.hour * 3600 + t.minute * 60 + t.second

/-- `(a - b).days` for Python datetimes: `timedelta` normalizes `days` by
flooring, hence `Int.fdiv`. -/
def diffDays (a b : DateTime) : Int :=
  Int.fdiv ((dtSec a : Int) - (dtSec b : Int)) 86400

/-- Zero-padded 2-digit field (`strftime` `%m`, `%d`). -/
def pad2 (n : Nat) : String :=
  if n < 10 then "0" ++ toString n else toString n

/-- Zero-padded 4-digit field (`strftime` `%Y`). -/
def pad4 (n : Nat) : String :=
  if n < 10 then "000" ++ toString n
  else if n < 100 then "00" ++ toString n
  else if n < 1000 then "0" ++ toString n
  else toString n

/-- `strftime('%Y-%m-%d')`. -/
def fmtDate (t : DateTime) : String :=
  pad4 t.year ++ "-" ++ pad2 t.month ++ "-" ++ pad2 t.day

/-- A filesystem path split into directory, stem and extension, mirroring
`pathlib.Path` (`name = stem + suffix`). -/
structure MediaPath where
  dir : String
  stem : String
  ext : String
deriving DecidableEq, Repr

/-- `Path.name`. -/
def MediaPath.name (p : MediaPath) : String := p.stem ++ p.ext

/-- The full path string. -/
def MediaPath.full (p : MediaPath) : String := p.dir ++ "/" ++ p.stem ++ p.ext

/-- GPS coordinate in decimal degrees. -/
abbrev Gps := ℚ × ℚ

/-- The `PhotoInfo` dataclass of the source. -/
structure PhotoInfo where
  filepath : MediaPath
  datetime : DateTime
  gps_coords : Option Gps := none
  location_name : Option String := none
  file_hash : String := ""
  file_size : Nat := 0
  is_video : Bool := false
deriving DecidableEq, Repr

/-! ## Dominant location (`get_dominant_location`) -/

/-- The non-empty place name of a photo, if any: Python's
`[p.location_name for p in photos if p.location_name]` keeps only truthy
(non-`None`, non-empty) strings. -/
def truthyLoc (p : PhotoInfo) : Option String :=
  match p.location_name with
  | some s => if s = "" then none else some s
  | none => none

/-- One step of scanning for the most frequent element; replaces the current
best only on a strictly larger count, so ties keep the earlier name, exactly
like `collections.Counter.most_common(1)` (max count, insertion order on
ties). -/
def mcStep (l : List String) (best : Option String) (s : String) : Option String :=
  match best with
  | none => some s
  | some b => if l.count b < l.count s then some s else some b

/-- `Counter(locations).most_common(1)`: the most frequent element of `l`
(first-encountered on ties), or `none` for the empty list. -/
def mostCommon (l : List String) : Option String :=
  l.foldl (mcStep l) none

/-- The acceptance test `count >= max(1, len(photos) * 0.3)` of the source, in
the exact integer form (both sides scaled by 10). -/
def dominantThreshold (count len : Nat) : Bool :=
  max 10 (3 * len) ≤ 10 * count

/-- `get_dominant_location` of the source: `None` without geocoding, else the
most frequent non-empty place name provided it meets the 30 % threshold. -/
def get_dominant_location (use_geocoding : Bool) (photos : List PhotoInfo) :
    Option String :=
  if use_geocoding = false then none
  else
    match mostCommon (photos.filterMap truthyLoc) with
    | none => none
    | some loc =>
      if dominantThreshold ((photos.filterMap truthyLoc).count loc) photos.length then
        some loc
      else none

/-! ## Event naming (`create_event_name`) -/

/-- `min(p.datetime for p in photos)` (callers guarantee non-emptiness; the
default for `[]` is arbitrary). -/
def minDT : List PhotoInfo → DateTime
  | [] => ⟨1, 1, 1, 0, 0, 0⟩
  | p :: rest =>
    rest.foldl (fun acc q => if dtSec q.datetime < dtSec acc then q.datetime else acc)
      p.datetime

/-- `max(p.datetime for p in photos)`. -/
def maxDT : List PhotoInfo → DateTime
  | [] => ⟨1, 1, 1, 0, 0, 0⟩
  | p :: rest =>
    rest.foldl (fun acc q => if dtSec acc < dtSec q.datetime then q.datetime else acc)
      p.datetime

/-- `"-" ++ location` when a dominant location exists, else nothing. -/
def locSuffix : Option String → String
  | some loc => "-" ++ loc
  | none => ""

/-- `create_event_name` of the source: single-day name `YYYY/MM-DD` when
`(end - start).days == 0`, otherwise `YYYY/Event_<start>_bis_<end>`, each with
an optional `-location` suffix. -/
def create_event_name (use_geocoding : Bool) (photos : List PhotoInfo) : String :=
  let start_date := minDT photos
  let end_date := maxDT photos
  let location_name := get_dominant_location use_geocoding photos
  if diffDays end_date start_date = 0 then
    pad4 start_date.year ++ "/" ++ pad2 start_date.month ++ "-" ++ pad2 start_date.day
      ++ locSuffix location_name
  else
    pad4 start_date.year ++ "/Event_" ++ fmtDate start_date ++ "_bis_" ++ fmtDate end_date
      ++ locSuffix location_name

/-! ## Event clustering (`group_photos_into_events`) -/

/-- The clustering parameters of the `PhotoOrganizer` constructor that the
grouping pass reads. -/
structure Config where
  event_max_days : Int
  min_event_photos : Nat
  use_geocoding : Bool

/-- Whether cluster member `q` carries GPS and is within radius of `g`
(the comparison `calculate_distance(photo.gps, q.gps) <= geo_radius_km`,
abstracted over the haversine predicate `near`). -/
def gpsNear (near : Gps → Gps → Bool) (g : Gps) (q : PhotoInfo) : Bool :=
  match q.gps_coords with
  | some g' => near g g'
  | none => false

/-- The membership decision of the source's loop body: time criterion first;
for a GPS-bearing photo the `for`/`else` scan over current members — any
in-range GPS member keeps `belongs = True`, otherwise the presence of any
GPS-bearing member forces `belongs = False`. -/
def belongsToEvent (cfg : Config) (near : Gps → Gps → Bool)
    (current : List PhotoInfo) (start : DateTime) (p : PhotoInfo) : Bool :=
  if diffDays p.datetime start ≤ cfg.event_max_days then
    match p.gps_coords with
    | some g =>
      if current.any (gpsNear near g) then true
      else if current.any (fun q => q.gps_coords.isSome) then false
      else true
    | none => true
  else false

/-- State of the single forward clustering pass. -/
structure ClusterState where
  events : List (String × List PhotoInfo)
  current : List PhotoInfo
  start : DateTime
  singles : List PhotoInfo
deriving Repr

/-- Python `dict` assignment `d[k] = v`: overwrite in place when the key
exists, append otherwise (insertion order preserved). -/
def dictInsert (k : String) (v : List PhotoInfo) :
    List (String × List PhotoInfo) → List (String × List PhotoInfo)
  | [] => [(k, v)]
  | (k', v') :: rest =>
    if k' = k then (k, v) :: rest else (k', v') :: dictInsert k v rest

/-- Closing the open cluster: named event when it has at least
`min_event_photos` members, loose files otherwise. -/
def closeCluster (cfg : Config) (st : ClusterState) : ClusterState :=
  if cfg.min_event_photos ≤ st.current.length then
    { st with
      events := dictInsert (create_event_name cfg.use_geocoding st.current) st.current st.events
      current := [] }
  else
    { st with singles := st.singles ++ st.current, current := [] }

/-- One iteration of the clustering loop over the next photo. -/
def stepPhoto (cfg : Config) (near : Gps → Gps → Bool)
    (st : ClusterState) (p : PhotoInfo) : ClusterState :=
  if st.current.isEmpty then
    { st with current := [p], start := p.datetime }
  else if belongsToEvent cfg near st.current st.start p then
    { st with current := st.current ++ [p] }
  else
    let st' := closeCluster cfg st
    { st' with current := [p], start := p.datetime }

/-- Sort key of `sorted(self.photos, key=lambda p: p.datetime)`. -/
def photoLe (a b : PhotoInfo) : Prop := dtSec a.datetime ≤ dtSec b.datetime

instance : DecidableRel photoLe := fun _ _ => Nat.decLe _ _

/-- The empty initial state of the pass. -/
def initState : ClusterState := ⟨[], [], ⟨1, 1, 1, 0, 0, 0⟩, []⟩

/-- After the pass: close the still-open cluster if any, then expose loose
files under the sentinel key `"."` (`events["."] = single_files`). -/
def finalizeD (cfg : Config) (st : ClusterState) : List (String × List PhotoInfo) :=
  let st2 := if st.current.isEmpty then st else closeCluster cfg st
  if st2.singles.isEmpty then st2.events else dictInsert "." st2.singles st2.events

/-- `group_photos_into_events` of the source: sort by timestamp, run the pass,
close the still-open cluster, and expose loose files under the sentinel key
`"."`. -/
def group_photos_into_events (cfg : Config) (near : Gps → Gps → Bool)
    (photos : List PhotoInfo) : List (String × List PhotoInfo) :=
  if photos.isEmpty then []
  else finalizeD cfg ((photos.insertionSort photoLe).foldl (stepPhoto cfg near) initState)

/-! ## Scanner (`get_file_hash`, `get_best_datetime`, `process_single_file`,
`scan_photos`) -/

/-- Input description of one file on disk: what the hashing, metadata and
filename extractors of the source would return for it. A `hashResult` of
`none` models an I/O failure inside `get_file_hash`. -/
structure FileEntry where
  filepath : MediaPath
  hashResult : Option String
  exif_datetime : Option DateTime
  filename_datetime : Option DateTime
  mtime : DateTime
  gps : Option Gps := none
  size : Nat := 0
deriving DecidableEq, Repr

/-- `get_file_hash`: the SHA-256 digest, or the empty string when reading the
file raises (the `except` branch returns `""`). -/
def get_file_hash (f : FileEntry) : String :=
  f.hashResult.getD ""

/-- `get_best_datetime`: embedded metadata first, then the filename pattern,
then the filesystem modification time. Always returns a timestamp. -/
def get_best_datetime (f : FileEntry) : DateTime :=
  match f.exif_datetime with
  | some t => t
  | none =>
    match f.filename_datetime with
    | some t => t
    | none => f.mtime

/-- The `video_extensions` set of the source. -/
def video_extensions : List String := [".mov", ".mp4", ".avi", ".vid"]

/-- The `PhotoInfo` built by `process_single_file` for a non-duplicate file. -/
def mkPhotoInfo (f : FileEntry) (h : String) : PhotoInfo :=
  { filepath := f.filepath
    datetime := get_best_datetime f
    gps_coords := f.gps
    location_name := none
    file_hash := h
    file_size := f.size
    is_video := video_extensions.contains f.filepath.ext }

/-- The scan loop: per file, compute the hash; if it is already in the shared
hash index the file's path goes to `duplicates`, otherwise the hash is
inserted and a `PhotoInfo` is produced (`process_single_file` plus the
result-collection loop of `scan_photos`, sequentialized in discovery
order). Returns `(photos, duplicate paths)`. -/
def scanPhotos : List FileEntry → List String → List PhotoInfo × List String
  | [], _ => ([], [])
  | f :: rest, seen =>
    let h := get_file_hash f
    if h ∈ seen then
      let r := scanPhotos rest seen
      (r.1, f.filepath.full :: r.2)
    else
      let r := scanPhotos rest (h :: seen)
      (mkPhotoInfo f h :: r.1, r.2)

/-- `scan_photos` of the source (fresh run, empty hash index). -/
def scan_photos (files : List FileEntry) : List PhotoInfo × List String :=
  scanPhotos files []

/-! ## Move planner (`organize_photos`) -/

/-- Source path string of a photo. -/
def srcPath (p : PhotoInfo) : String := p.filepath.full

/-- Destination folder of a group: the target directory itself for the
sentinel key `"."`, otherwise the event subfolder. -/
def eventFolder (targetDir eventName : String) : String :=
  if eventName = "." then targetDir else targetDir ++ "/" ++ eventName

/-- The suffix-probing loop body: candidate `folder/stem_<k><ext>` for
`k = counter, counter+1, ...` until one is not taken (fuel-bounded). -/
def findFree (existing : List String) (folder stem ext : String) :
    Nat → Nat → String
  | 0, k => folder ++ "/" ++ stem ++ "_" ++ toString k ++ ext
  | fuel + 1, k =>
    let cand := folder ++ "/" ++ stem ++ "_" ++ toString k ++ ext
    if cand ∈ existing then findFree existing folder stem ext fuel (k + 1)
    else cand

/-- The collision handling of `organize_photos` in execute mode: keep the
original name when free, else append `_1`, `_2`, … before the extension. -/
def resolveTarget (existing : List String) (folder stem ext : String) : String :=
  let base := folder ++ "/" ++ stem ++ ext
  if base ∈ existing then findFree existing folder stem ext (existing.length + 1) 1
  else base

/-- Inner loop of `organize_photos` over one group's photos: accumulates the
`(source, destination)` pairs and, in execute mode, the set of occupied
destination paths. In dry-run mode the collision loop is skipped
(`while target_path.exists() and not dry_run`) and nothing is created. -/
def movePhotoFold (dryRun : Bool) (folder : String)
    (acc : List (String × String) × List String) (p : PhotoInfo) :
    List (String × String) × List String :=
  if dryRun then
    (acc.1 ++ [(srcPath p, folder ++ "/" ++ p.filepath.stem ++ p.filepath.ext)], acc.2)
  else
    let dest := resolveTarget acc.2 folder p.filepath.stem p.filepath.ext
    (acc.1 ++ [(srcPath p, dest)], dest :: acc.2)

/-- `organize_photos` of the source, reduced to its observable plan: the
ordered `(source, destination)` pairs it prints (dry run) or moves
(execute). `existing0` is the set of paths present in the target tree
before the run. -/
def organize_photos (dryRun : Bool) (targetDir : String) (existing0 : List String)
    (events : List (String × List PhotoInfo)) : List (String × String) :=
  (events.foldl
    (fun acc ev => ev.2.foldl (movePhotoFold dryRun (eventFolder targetDir ev.1)) acc)
    ([], existing0)).1

/-! ## Concrete fixtures used by the example conjuncts, counterexamples and
witnesses -/

/-- A January 2021 timestamp. -/
def dJan (d h : Nat) : DateTime := ⟨2021, 1, d, h, 0, 0⟩

/-- A GPS-less photo timestamped January `d`, hour `h`. -/
def ph (d h : Nat) : PhotoInfo :=
  { filepath := ⟨"s", "p" ++ toString d, ".jpg"⟩, datetime := dJan d h }

/-- Clustering parameters with `event_max_days = 3` and `min_event_photos = 1`. -/
def cfg3 : Config := ⟨3, 1, false⟩

/-- Clustering parameters with `min_event_photos = 10` (the source default). -/
def cfgMin10 : Config := ⟨3, 10, false⟩

/-- A geometric predicate under which no two coordinates are in range. -/
def nearNone : Gps → Gps → Bool := fun _ _ => false

/-- A geometric predicate under which every two coordinates are in range. -/
def nearAll : Gps → Gps → Bool := fun _ _ => true

/-- Photo in year 2020 (loose-file fixture). -/
def p2020 : PhotoInfo := { filepath := ⟨"s", "a", ".jpg"⟩, datetime := ⟨2020, 5, 5, 12, 0, 0⟩ }

/-- Photo in year 2021 (loose-file fixture). -/
def p2021 : PhotoInfo := { filepath := ⟨"s", "b", ".jpg"⟩, datetime := ⟨2021, 6, 6, 12, 0, 0⟩ }

/-- Photo at 23:00 on 2021-01-01 (span-midnight fixture). -/
def pn1 : PhotoInfo := { filepath := ⟨"s", "n1", ".jpg"⟩, datetime := ⟨2021, 1, 1, 23, 0, 0⟩ }

/-- Photo at 01:00 on 2021-01-02 (span-midnight fixture). -/
def pn2 : PhotoInfo := { filepath := ⟨"s", "n2", ".jpg"⟩, datetime := ⟨2021, 1, 2, 1, 0, 0⟩ }

/-- GPS-bearing photo at 10:00 with coordinate (0, 0). -/
def pg1 : PhotoInfo :=
  { filepath := ⟨"s", "g1", ".jpg"⟩, datetime := dJan 1 10, gps_coords := some (0, 0) }

/-- GPS-bearing photo at 11:00 with coordinate (50, 50). -/
def pg2 : PhotoInfo :=
  { filepath := ⟨"s", "g2", ".jpg"⟩, datetime := dJan 1 11, gps_coords := some (50, 50) }

/-- Photo tagged with a place name `loc`, index `i`. -/
def phLoc (loc : Option String) (i : Nat) : PhotoInfo :=
  { filepath := ⟨"s", "b" ++ toString i, ".jpg"⟩, datetime := dJan 1 (i % 24)
    location_name := loc }

/-- Ten photos, three tagged "Berlin". -/
def ex3of10 : List PhotoInfo :=
  (List.range 3).map (phLoc (some "Berlin")) ++
    (List.range 7).map (fun i => phLoc none (i + 3))

/-- Ten photos, two tagged "Berlin". -/
def ex2of10 : List PhotoInfo :=
  (List.range 2).map (phLoc (some "Berlin")) ++
    (List.range 8).map (fun i => phLoc none (i + 2))

/-- Two distinct-content photos sharing the basename `a.jpg`. -/
def q1 : PhotoInfo := { filepath := ⟨"s1", "a", ".jpg"⟩, datetime := dJan 1 10 }

/-- Second photo with basename `a.jpg`, from another source folder. -/
def q2 : PhotoInfo := { filepath := ⟨"s2", "a", ".jpg"⟩, datetime := dJan 1 11 }

/-- A single fixed group containing the two colliding basenames. -/
def evCollide : List (String × List PhotoInfo) := [("2021/01-01", [q1, q2])]

/-- Two fixed groups with pairwise distinct destinations. -/
def evDistinct : List (String × List PhotoInfo) :=
  [("2021/01-01", [q1]), ("2021/01-05", [ph 5 12])]

/-- A file whose embedded capture time T1 differs from the time T2 its
filename encodes. -/
def fClash : FileEntry :=
  { filepath := ⟨"s", "2021-06-06 10.00.00", ".jpg"⟩
    hashResult := some "h1"
    exif_datetime := some (dJan 2 9)
    filename_datetime := some ⟨2021, 6, 6, 10, 0, 0⟩
    mtime := dJan 9 9 }

/-- An open cluster holding the GPS-bearing photo `pg1`. -/
def stGeo : ClusterState := ⟨[], [pg1], dJan 1 10, []⟩

/-- File fixture with content hash `"h1"`. -/
def fA : FileEntry :=
  { filepath := ⟨"s", "a", ".jpg"⟩, hashResult := some "h1"
    exif_datetime := some (dJan 1 10), filename_datetime := none, mtime := dJan 1 10 }

/-- File fixture with the same content hash `"h1"` under another path. -/
def fB : FileEntry :=
  { filepath := ⟨"s", "b", ".jpg"⟩, hashResult := some "h1"
    exif_datetime := some (dJan 1 11), filename_datetime := none, mtime := dJan 1 11 }

/-- File fixture whose hash computation fails. -/
def fErr1 : FileEntry :=
  { filepath := ⟨"s", "e1", ".jpg"⟩, hashResult := none
    exif_datetime := some (dJan 2 10), filename_datetime := none, mtime := dJan 2 10 }

/-- Second, unrelated file fixture whose hash computation also fails. -/
def fErr2 : FileEntry :=
  { filepath := ⟨"s", "e2", ".jpg"⟩, hashResult := none
    exif_datetime := some (dJan 3 10), filename_datetime := none, mtime := dJan 3 10 }

/-! ## Spec-side definitions used to state the corrected claims -/

/-- Modelled from the spec: the planner's intended destination list — "for
each event, for each member, destination = event folder + original filename"
(§4.6), with no collision handling. Used to compare preview and execute
plans. -/
def plannedPairs (targetDir : String) (events : List (String × List PhotoInfo)) :
    List (String × String) :=
  (events.map (fun ev =>
    ev.2.map (fun p =>
      (srcPath p,
        eventFolder targetDir ev.1 ++ "/" ++ p.filepath.stem ++ p.filepath.ext)))).flatten

/-- The destinations of the intended plan, in order. -/
def plannedDests (targetDir : String) (events : List (String × List PhotoInfo)) :
    List String :=
  (events.map (fun ev =>
    ev.2.map (fun p =>
      eventFolder targetDir ev.1 ++ "/" ++ p.filepath.stem ++ p.filepath.ext))).flatten

/-- Closing the open cluster, list-semantics variant: closed named clusters
are collected in order with plain append instead of Python dict assignment
(which overwrites an existing key). Used to state the amended partition
claim. -/
def closeClusterL (cfg : Config) (st : ClusterState) : ClusterState :=
  if cfg.min_event_photos ≤ st.current.length then
    { st with
      events := st.events ++ [(create_event_name cfg.use_geocoding st.current, st.current)]
      current := [] }
  else
    { st with singles := st.singles ++ st.current, current := [] }

/-- One clustering iteration, list-semantics variant. -/
def stepPhotoL (cfg : Config) (near : Gps → Gps → Bool)
    (st : ClusterState) (p : PhotoInfo) : ClusterState :=
  if st.current.isEmpty then
    { st with current := [p], start := p.datetime }
  else if belongsToEvent cfg near st.current st.start p then
    { st with current := st.current ++ [p] }
  else
    let st' := closeClusterL cfg st
    { st' with current := [p], start := p.datetime }

/-- Final close and loose-file bucket, list-semantics variant. -/
def finalizeL (cfg : Config) (st : ClusterState) : List (String × List PhotoInfo) :=
  let st2 := if st.current.isEmpty then st else closeClusterL cfg st
  if st2.singles.isEmpty then st2.events else st2.events ++ [(".", st2.singles)]

/-- The ordered list of closed clusters (with the loose-file bucket appended
last), before Python-dict key collapsing. -/
def group_clusters (cfg : Config) (near : Gps → Gps → Bool)
    (photos : List PhotoInfo) : List (String × List PhotoInfo) :=
  if photos.isEmpty then []
  else finalizeL cfg ((photos.insertionSort photoLe).foldl (stepPhotoL cfg near) initState)

/-- Replaying a list of key/value assignments through Python dict semantics. -/
def dictFold (l : List (String × List PhotoInfo)) : List (String × List PhotoInfo) :=
  l.foldl (fun d kv => dictInsert kv.1 kv.2 d) []

/-- The multiset of photos appearing in a cluster state. -/
def stateContents (st : ClusterState) : List PhotoInfo :=
  (st.events.map Prod.snd).flatten ++ st.current ++ st.singles

/-- The dict-semantics view of a list-semantics cluster state. -/
def toDict (st : ClusterState) : ClusterState :=
  ⟨dictFold st.events, st.current, st.start, st.singles⟩

/-! ## C2: the time criterion -/

/-- C2: the time criterion compares `(r.timestamp - start of cluster).days`
(floored day count, sub-day precision discarded) with `eventMaxDays`: a record
beyond the bound never belongs, a GPS-less record belongs exactly when the
bound holds, and with `eventMaxDays = 3` photos on Day 1 and Day 4 (exactly
3 days apart) land in one cluster while Day 1 and Day 5 split into two. -/
theorem time_criterion_day_granularity :
    (∀ cfg near cur start p, ¬ diffDays p.datetime start ≤ cfg.event_max_days →
      belongsToEvent cfg near cur start p = false) ∧
    (∀ cfg near cur start p, p.gps_coords = none →
      (belongsToEvent cfg near cur start p = true ↔
        diffDays p.datetime start ≤ cfg.event_max_days)) ∧
    group_photos_into_events cfg3 nearNone [ph 1 12, ph 4 12] =
      [("2021/Event_2021-01-01_bis_2021-01-04", [ph 1 12, ph 4 12])] ∧
    group_photos_into_events cfg3 nearNone [ph 1 12, ph 5 12] =
      [("2021/01-01", [ph 1 12]), ("2021/01-05", [ph 5 12])] := by
  refine ⟨?_, ?_, by decide, by decide⟩
  · intro cfg near cur start p ht
    simp only [belongsToEvent, if_neg ht]
  · intro cfg near cur start p hg
    simp only [belongsToEvent, hg]
    by_cases ht : diffDays p.datetime start ≤ cfg.event_max_days
    · simp [ht]
    · simp [ht]

/-- Witness for C2 at a concrete input: a photo four floored days after the
cluster start is rejected by the membership test. -/
theorem time_criterion_day_granularity_witness :
    belongsToEvent cfg3 nearNone [ph 1 12] (dJan 1 12) (ph 5 12) = false :=
  time_criterion_day_granularity.1 cfg3 nearNone [ph 1 12] (dJan 1 12) (ph 5 12)
    (by decide)

/-! ## C3: loose files land under the sentinel key `"."`, not per-year -/

/-- C3 (failing-input evaluation): two undersized clusters from different
years are both routed, unmerged and undiscarded, into the single sentinel
bucket `"."` — not into per-year `YYYY/einzeldateien` buckets as the rest of
the program (script generator, preview) expects. -/
theorem loose_files_single_sentinel_bucket :
    group_photos_into_events cfgMin10 nearNone [p2020, p2021] =
      [(".", [p2020, p2021])] := by decide

/-! ## C4: the single-day naming condition is duration-based -/

/-- C4 counterexample: an event whose members span 23:00 on Jan 1 to 01:00 on
Jan 2 — two different calendar days — still gets the single-day name
`2021/01-01`, because the source tests `(end - start).days == 0`, not
same-calendar-day. -/
theorem event_name_midnight_span :
    create_event_name false [pn1, pn2] = "2021/01-01" ∧
    (minDT [pn1, pn2]).day = 1 ∧ (maxDT [pn1, pn2]).day = 2 ∧
    (minDT [pn1, pn2]).month = (maxDT [pn1, pn2]).month ∧
    (minDT [pn1, pn2]).year = (maxDT [pn1, pn2]).year ∧
    create_event_name false [pn1, pn2] ≠
      "2021/Event_2021-01-01_bis_2021-01-02" := by decide

/-- C4 (amended): with `start`/`end` the min/max member timestamp and `place`
the dominant location, the event name is `YEAR/MM-DD[-place]` when
`(end - start).days = 0` (floored duration under one day), and
`YEAR/Event_<start-date>_bis_<end-date>[-place]` otherwise. -/
theorem event_naming_rule (useGeo : Bool) (photos : List PhotoInfo) :
    (diffDays (maxDT photos) (minDT photos) = 0 →
      create_event_name useGeo photos =
        pad4 (minDT photos).year ++ "/" ++ pad2 (minDT photos).month ++ "-" ++
          pad2 (minDT photos).day ++ locSuffix (get_dominant_location useGeo photos)) ∧
    (¬ diffDays (maxDT photos) (minDT photos) = 0 →
      create_event_name useGeo photos =
        pad4 (minDT photos).year ++ "/Event_" ++ fmtDate (minDT photos) ++ "_bis_" ++
          fmtDate (maxDT photos) ++ locSuffix (get_dominant_location useGeo photos)) := by
  constructor
  · intro h
    simp only [create_event_name, if_pos h]
  · intro h
    simp only [create_event_name, if_neg h]

/-- Witness for C4 (amended) at a concrete input: a one-member event gets the
single-day name. -/
theorem event_naming_rule_witness :
    create_event_name false [pn1] =
      pad4 (minDT [pn1]).year ++ "/" ++ pad2 (minDT [pn1]).month ++ "-" ++
        pad2 (minDT [pn1]).day ++ locSuffix (get_dominant_location false [pn1]) :=
  (event_naming_rule false [pn1]).1 (by decide)

/-! ## Scan-loop lemmas -/

/-- A file whose hash is new relative to both the running index and every
earlier file becomes a `PhotoInfo`. -/
lemma scanPhotos_photo_mem (l1 : List FileEntry) (f : FileEntry) (l2 : List FileEntry)
    (seen : List String)
    (h1 : get_file_hash f ∉ seen)
    (h2 : get_file_hash f ∉ l1.map get_file_hash) :
    mkPhotoInfo f (get_file_hash f) ∈ (scanPhotos (l1 ++ f :: l2) seen).1 := by
  induction l1 generalizing seen with
  | nil =>
    simp [scanPhotos, h1]
  | cons a l1 ih =>
    have hne : get_file_hash f ≠ get_file_hash a := by
      intro he
      exact h2 (by simp [he])
    have h2' : get_file_hash f ∉ l1.map get_file_hash := by
      intro hm
      exact h2 (List.mem_cons_of_mem _ hm)
    by_cases ha : get_file_hash a ∈ seen
    · simpa [scanPhotos, ha] using ih seen h1 h2'
    · have hseen : get_file_hash f ∉ get_file_hash a :: seen := by
        intro hmem
        rcases List.mem_cons.mp hmem with he | hs
        · exact hne he
        · exact h1 hs
      simpa [scanPhotos, ha] using Or.inr (ih (get_file_hash a :: seen) hseen h2')

/-- A file whose hash is already present — in the running index or on an
earlier file — is reported under `duplicates`. -/
lemma scanPhotos_dup_mem (l1 : List FileEntry) (f : FileEntry) (l2 : List FileEntry)
    (seen : List String)
    (h : get_file_hash f ∈ seen ∨ get_file_hash f ∈ l1.map get_file_hash) :
    f.filepath.full ∈ (scanPhotos (l1 ++ f :: l2) seen).2 := by
  induction l1 generalizing seen with
  | nil =>
    rcases h with h | h
    · simp [scanPhotos, h]
    · simp at h
  | cons a l1 ih =>
    by_cases ha : get_file_hash a ∈ seen
    · have h' : get_file_hash f ∈ seen ∨ get_file_hash f ∈ l1.map get_file_hash := by
        rcases h with h | h
        · exact Or.inl h
        · rw [List.map_cons] at h
          rcases List.mem_cons.mp h with he | hs
          · exact Or.inl (he ▸ ha)
          · exact Or.inr hs
      simpa [scanPhotos, ha] using Or.inr (ih seen h')
    · have h' : get_file_hash f ∈ get_file_hash a :: seen ∨
          get_file_hash f ∈ l1.map get_file_hash := by
        rcases h with h | h
        · exact Or.inl (List.mem_cons_of_mem _ h)
        · rw [List.map_cons] at h
          rcases List.mem_cons.mp h with he | hs
          · exact Or.inl (by simp [he])
          · exact Or.inr hs
      simpa [scanPhotos, ha] using ih (get_file_hash a :: seen) h'

/-- The retained photos carry pairwise distinct hashes, none of which was in
the incoming index. -/
lemma scanPhotos_hash_nodup (files : List FileEntry) (seen : List String) :
    ((scanPhotos files seen).1.map (fun p => p.file_hash)).Nodup ∧
    ∀ h ∈ (scanPhotos files seen).1.map (fun p => p.file_hash), h ∉ seen := by
  induction files generalizing seen with
  | nil => simp [scanPhotos]
  | cons f rest ih =>
    by_cases hf : get_file_hash f ∈ seen
    · simpa [scanPhotos, hf] using ih seen
    · have hrec := ih (get_file_hash f :: seen)
      constructor
      · simp only [scanPhotos, hf, if_false, List.map_cons, List.nodup_cons, mkPhotoInfo]
        refine ⟨fun hm => ?_, hrec.1⟩
        exact (hrec.2 _ hm) (List.mem_cons_self _ _)
      · intro x hx
        simp only [scanPhotos, hf, if_false, List.map_cons, mkPhotoInfo] at hx
        rcases List.mem_cons.mp hx with he | hs
        · exact he ▸ hf
        · intro hxs
          exact (hrec.2 _ hs) (List.mem_cons_of_mem _ hxs)

/-- Every scanned file lands either among the retained photos or among the
duplicate paths: the two path lists together are a permutation of the
input paths. -/
lemma scanPhotos_path_perm (files : List FileEntry) (seen : List String) :
    ((scanPhotos files seen).1.map (fun p => p.filepath.full) ++
      (scanPhotos files seen).2).Perm (files.map (fun f => f.filepath.full)) := by
  induction files generalizing seen with
  | nil => simp [scanPhotos]
  | cons f rest ih =>
    by_cases hf : get_file_hash f ∈ seen
    · have hmid :
          ((scanPhotos rest seen).1.map (fun p => p.filepath.full) ++
            (f.filepath.full :: (scanPhotos rest seen).2)).Perm
            (f.filepath.full ::
              ((scanPhotos rest seen).1.map (fun p => p.filepath.full) ++
                (scanPhotos rest seen).2)) := List.perm_middle
      simpa [scanPhotos, hf] using hmid.trans ((ih seen).cons f.filepath.full)
    · simpa [scanPhotos, hf, mkPhotoInfo] using
        (ih (get_file_hash f :: seen)).cons f.filepath.full

/-! ## Planner source-membership lemmas -/

/-- Every pair accumulated by the per-group inner loop either was already in
the accumulator or points at one of the group's photos. -/
lemma movePhotoFold_mem_src (dryRun : Bool) (folder : String) (ps : List PhotoInfo) :
    ∀ (acc : List (String × String) × List String) s d,
      (s, d) ∈ (ps.foldl (movePhotoFold dryRun folder) acc).1 →
      (s, d) ∈ acc.1 ∨ ∃ p ∈ ps, s = srcPath p := by
  induction ps with
  | nil =>
    intro acc s d h
    exact Or.inl h
  | cons p ps ih =>
    intro acc s d h
    rcases ih _ s d h with h' | ⟨p', hp', he⟩
    · cases dryRun with
      | false =>
        simp only [movePhotoFold, if_neg (Bool.false_ne_true)] at h'
        rcases List.mem_append.mp h' with hin | hone
        · exact Or.inl hin
        · rcases List.mem_singleton.mp hone with he
          exact Or.inr ⟨p, List.mem_cons_self _ _, congrArg Prod.fst he⟩
      | true =>
        simp only [movePhotoFold, if_pos rfl] at h'
        rcases List.mem_append.mp h' with hin | hone
        · exact Or.inl hin
        · rcases List.mem_singleton.mp hone with he
          exact Or.inr ⟨p, List.mem_cons_self _ _, congrArg Prod.fst he⟩
    · exact Or.inr ⟨p', List.mem_cons_of_mem _ hp', he⟩

/-- Every pair in a produced plan points at a photo of one of the groups. -/
lemma organize_photos_mem_src (dryRun : Bool) (targetDir : String)
    (events : List (String × List PhotoInfo)) :
    ∀ (acc : List (String × String) × List String) s d,
      (s, d) ∈ (events.foldl
        (fun acc ev =>
          ev.2.foldl (movePhotoFold dryRun (eventFolder targetDir ev.1)) acc) acc).1 →
      (s, d) ∈ acc.1 ∨ ∃ ev ∈ events, ∃ p ∈ ev.2, s = srcPath p := by
  induction events with
  | nil =>
    intro acc s d h
    exact Or.inl h
  | cons ev evs ih =>
    intro acc s d h
    rcases ih _ s d h with h' | ⟨ev', hev', hp⟩
    · rcases movePhotoFold_mem_src dryRun (eventFolder targetDir ev.1) ev.2 acc s d h' with
        hin | ⟨p, hp, he⟩
      · exact Or.inl hin
      · exact Or.inr ⟨ev, List.mem_cons_self _ _, p, hp, he⟩
    · exact Or.inr ⟨ev', List.mem_cons_of_mem _ hev', hp⟩

/-! ## Dict-semantics versus list-semantics clustering -/

/-- Replaying one more assignment. -/
lemma dictFold_concat (l : List (String × List PhotoInfo)) (kv : String × List PhotoInfo) :
    dictFold (l ++ [kv]) = dictInsert kv.1 kv.2 (dictFold l) :=
  List.foldl_concat _ _ kv l

/-- Closing a cluster commutes with the dict view of the event map. -/
lemma closeCluster_toDict (cfg : Config) (st : ClusterState) :
    closeCluster cfg (toDict st) = toDict (closeClusterL cfg st) := by
  unfold closeCluster closeClusterL toDict
  by_cases h : cfg.min_event_photos ≤ st.current.length
  · rw [if_pos h, if_pos h]
    simp [dictFold_concat]
  · rw [if_neg h, if_neg h]

/-- Projection of the dict view. -/
lemma toDict_current (st : ClusterState) : (toDict st).current = st.current := rfl

/-- Projection of the dict view. -/
lemma toDict_start (st : ClusterState) : (toDict st).start = st.start := rfl

/-- One clustering iteration commutes with the dict view of the event map. -/
lemma stepPhoto_toDict (cfg : Config) (near : Gps → Gps → Bool)
    (st : ClusterState) (p : PhotoInfo) :
    stepPhoto cfg near (toDict st) p = toDict (stepPhotoL cfg near st p) := by
  unfold stepPhoto stepPhotoL
  simp only [toDict_current, toDict_start]
  by_cases h1 : st.current.isEmpty
  · rw [if_pos h1, if_pos h1]
    rfl
  · rw [if_neg h1, if_neg h1]
    by_cases h2 : belongsToEvent cfg near st.current st.start p = true
    · rw [if_pos h2, if_pos h2]
      rfl
    · rw [if_neg h2, if_neg h2]
      show { closeCluster cfg (toDict st) with current := [p], start := p.datetime } = _
      rw [closeCluster_toDict]
      rfl

/-- The whole pass commutes with the dict view of the event map. -/
lemma foldl_stepPhoto_toDict (cfg : Config) (near : Gps → Gps → Bool)
    (l : List PhotoInfo) :
    ∀ st : ClusterState,
      l.foldl (stepPhoto cfg near) (toDict st) =
        toDict (l.foldl (stepPhotoL cfg near) st) := by
  induction l with
  | nil => intro st; rfl
  | cons p l ih =>
    intro st
    simp only [List.foldl_cons, stepPhoto_toDict]
    exact ih _

/-- Finalization commutes with the dict view of the event map. -/
lemma finalize_toDict (cfg : Config) (st : ClusterState) :
    finalizeD cfg (toDict st) = dictFold (finalizeL cfg st) := by
  cases st with
  | mk E cur s0 sing =>
    unfold finalizeD finalizeL
    by_cases hc : cur.isEmpty
    · by_cases hs : sing.isEmpty <;>
        simp [toDict, hc, hs, dictFold, List.foldl_append]
    · by_cases hm : cfg.min_event_photos ≤ cur.length
      · by_cases hs : sing.isEmpty <;>
          simp [toDict, hc, hm, hs, closeCluster, closeClusterL, dictFold,
            List.foldl_append]
      · by_cases hs : (sing ++ cur).isEmpty <;>
          simp [toDict, hc, hm, hs, closeCluster, closeClusterL, dictFold,
            List.foldl_append]

/-- The returned mapping is the dict-replay of the ordered cluster list. -/
lemma group_eq_dictFold (cfg : Config) (near : Gps → Gps → Bool)
    (photos : List PhotoInfo) :
    group_photos_into_events cfg near photos =
      dictFold (group_clusters cfg near photos) := by
  by_cases hph : photos.isEmpty
  · unfold group_photos_into_events group_clusters
    rw [if_pos hph, if_pos hph]
    rfl
  · unfold group_photos_into_events group_clusters
    have hfold : (photos.insertionSort photoLe).foldl (stepPhoto cfg near) initState =
        toDict ((photos.insertionSort photoLe).foldl (stepPhotoL cfg near) initState) :=
      foldl_stepPhoto_toDict cfg near (photos.insertionSort photoLe) initState
    rw [if_neg hph, if_neg hph, hfold]
    exact finalize_toDict cfg _

/-- Inserting with a fresh key is an append. -/
lemma dictInsert_eq_append (k : String) (v : List PhotoInfo)
    (d : List (String × List PhotoInfo)) (h : k ∉ d.map Prod.fst) :
    dictInsert k v d = d ++ [(k, v)] := by
  induction d with
  | nil => rfl
  | cons kv rest ih =>
    have hne : kv.1 ≠ k := by
      intro he
      exact h (by simp [← he])
    have hrest : k ∉ rest.map Prod.fst := fun hm => h (by simp [hm])
    cases kv with
    | mk k' v' =>
      simp only [dictInsert, if_neg (by simpa using hne), List.cons_append]
      rw [ih hrest]

/-- Replaying assignments with pairwise distinct keys changes nothing. -/
lemma dictFold_eq_self (l : List (String × List PhotoInfo))
    (h : (l.map Prod.fst).Nodup) : dictFold l = l := by
  induction l using List.reverseRecOn with
  | nil => rfl
  | append_singleton l kv ih =>
    rw [List.map_append] at h
    rcases List.nodup_append.mp h with ⟨h1, _, h3⟩
    have h2 : kv.1 ∉ l.map Prod.fst := fun hm => h3 hm (by simp)
    rw [dictFold_concat, ih h1, dictInsert_eq_append kv.1 kv.2 l h2]

/-- A dict assignment never grows the stored multiset beyond the overwritten
value plus the new one. -/
lemma flatten_dictInsert_subperm (k : String) (v : List PhotoInfo)
    (d : List (String × List PhotoInfo)) :
    (((dictInsert k v d).map Prod.snd).flatten).Subperm
      ((d.map Prod.snd).flatten ++ v) := by
  induction d with
  | nil =>
    simp only [dictInsert, List.map_cons, List.map_nil, List.flatten_cons,
      List.flatten_nil, List.append_nil, List.nil_append]
    exact List.Subperm.refl v
  | cons kv rest ih =>
    cases kv with
    | mk k' v' =>
      by_cases he : k' = k
      · have hred : dictInsert k v ((k', v') :: rest) = (k, v) :: rest := by
          simp [dictInsert, he]
        rw [hred]
        have h1 : (v ++ (rest.map Prod.snd).flatten).Perm
            ((rest.map Prod.snd).flatten ++ v) := List.perm_append_comm
        have h2 : ((rest.map Prod.snd).flatten ++ v).Sublist
            (v' ++ ((rest.map Prod.snd).flatten ++ v)) :=
          List.sublist_append_of_sublist_right (List.Sublist.refl _)
        simpa [List.append_assoc] using h1.subperm.trans h2.subperm
      · have hred : dictInsert k v ((k', v') :: rest) = (k', v') :: dictInsert k v rest := by
          simp [dictInsert, he]
        rw [hred]
        have := (List.subperm_append_left v').mpr ih
        simpa [List.append_assoc] using this

/-- The dict-replayed mapping stores a sub-multiset of all assigned values. -/
lemma flatten_dictFold_subperm (l : List (String × List PhotoInfo)) :
    (((dictFold l).map Prod.snd).flatten).Subperm ((l.map Prod.snd).flatten) := by
  induction l using List.reverseRecOn with
  | nil => simp [dictFold]
  | append_singleton l kv ih =>
    have hre : ((l ++ [kv]).map Prod.snd).flatten = (l.map Prod.snd).flatten ++ kv.2 := by
      simp
    rw [dictFold_concat, hre]
    exact (flatten_dictInsert_subperm kv.1 kv.2 (dictFold l)).trans
      ((List.subperm_append_right kv.2).mpr ih)

/-! ## Clustering preserves the photo multiset (list semantics) -/

/-- Closing leaves the open-cluster slot empty. -/
lemma closeClusterL_current (cfg : Config) (st : ClusterState) :
    (closeClusterL cfg st).current = [] := by
  unfold closeClusterL
  split <;> rfl

/-- Closing only moves photos between slots. -/
lemma closeClusterL_contents (cfg : Config) (st : ClusterState) :
    (stateContents (closeClusterL cfg st)).Perm (stateContents st) := by
  unfold closeClusterL
  by_cases h : cfg.min_event_photos ≤ st.current.length
  · rw [if_pos h]
    refine List.perm_iff_count.mpr fun a => ?_
    simp only [stateContents, List.map_append, List.map_cons, List.map_nil,
      List.flatten_append, List.flatten_cons, List.flatten_nil, List.count_append,
      List.append_nil, List.nil_append, List.count_nil]
  · rw [if_neg h]
    refine List.perm_iff_count.mpr fun a => ?_
    simp only [stateContents, List.count_append, List.count_nil, List.append_nil]
    omega

/-- One iteration adds exactly the processed photo to the state. -/
lemma stepPhotoL_contents (cfg : Config) (near : Gps → Gps → Bool)
    (st : ClusterState) (p : PhotoInfo) :
    (stateContents (stepPhotoL cfg near st p)).Perm (stateContents st ++ [p]) := by
  unfold stepPhotoL
  by_cases h1 : st.current.isEmpty
  · have hc : st.current = [] := List.isEmpty_iff.mp h1
    rw [if_pos h1]
    refine List.perm_iff_count.mpr fun a => ?_
    simp only [stateContents, hc, List.count_append, List.count_nil, List.nil_append]
    omega
  · rw [if_neg h1]
    by_cases h2 : belongsToEvent cfg near st.current st.start p = true
    · rw [if_pos h2]
      refine List.perm_iff_count.mpr fun a => ?_
      simp only [stateContents, List.count_append]
      omega
    · rw [if_neg h2]
      unfold closeClusterL
      by_cases h3 : cfg.min_event_photos ≤ st.current.length
      · rw [if_pos h3]
        refine List.perm_iff_count.mpr fun a => ?_
        simp only [stateContents, List.map_append, List.map_cons, List.map_nil,
          List.flatten_append, List.flatten_cons, List.flatten_nil, List.count_append,
          List.append_nil, List.nil_append, List.count_nil]
        omega
      · rw [if_neg h3]
        refine List.perm_iff_count.mpr fun a => ?_
        simp only [stateContents, List.count_append, List.count_nil, List.append_nil]
        omega

/-- The pass adds exactly the processed photos to the state. -/
lemma foldl_stepPhotoL_contents (cfg : Config) (near : Gps → Gps → Bool)
    (l : List PhotoInfo) :
    ∀ st : ClusterState,
      (stateContents (l.foldl (stepPhotoL cfg near) st)).Perm (stateContents st ++ l) := by
  induction l with
  | nil => intro st; simp
  | cons p l ih =>
    intro st
    have h1 := ih (stepPhotoL cfg near st p)
    have h2 := (stepPhotoL_contents cfg near st p).append_right l
    simp only [List.foldl_cons]
    refine h1.trans (h2.trans ?_)
    simp [List.append_assoc]

/-- Finalization of a state with an already-closed open slot exposes exactly
the state's contents. -/
lemma finalize_core_perm (st : ClusterState) (hcur : st.current = []) :
    (((if st.singles.isEmpty then st.events
        else st.events ++ [(".", st.singles)]).map Prod.snd).flatten).Perm
      (stateContents st) := by
  by_cases hs : st.singles.isEmpty
  · rw [if_pos hs, stateContents, hcur, List.isEmpty_iff.mp hs]
    simp
  · rw [if_neg hs, stateContents, hcur]
    refine List.perm_iff_count.mpr fun a => ?_
    simp only [List.map_append, List.map_cons, List.map_nil, List.flatten_append,
      List.flatten_cons, List.flatten_nil, List.count_append, List.append_nil,
      List.nil_append, List.count_nil]

/-- Finalization exposes exactly the state's contents. -/
lemma finalizeL_flatten_perm (cfg : Config) (st : ClusterState) :
    (((finalizeL cfg st).map Prod.snd).flatten).Perm (stateContents st) := by
  unfold finalizeL
  by_cases hc : st.current.isEmpty
  · rw [if_pos hc]
    exact finalize_core_perm st (List.isEmpty_iff.mp hc)
  · rw [if_neg hc]
    exact (finalize_core_perm (closeClusterL cfg st) (closeClusterL_current cfg st)).trans
      (closeClusterL_contents cfg st)

/-- The ordered cluster list holds exactly the input photos. -/
lemma group_clusters_flatten_perm (cfg : Config) (near : Gps → Gps → Bool)
    (photos : List PhotoInfo) :
    (((group_clusters cfg near photos).map Prod.snd).flatten).Perm photos := by
  by_cases hph : photos.isEmpty
  · unfold group_clusters
    rw [if_pos hph, List.isEmpty_iff.mp hph]
    simp
  · unfold group_clusters
    rw [if_neg hph]
    refine (finalizeL_flatten_perm cfg _).trans (List.Perm.trans ?_
      (List.perm_insertionSort photoLe photos))
    simpa [stateContents, initState] using
      foldl_stepPhotoL_contents cfg near (photos.insertionSort photoLe) initState

/-- The returned mapping's members form a sub-multiset of the input. -/
lemma group_flatten_subperm (cfg : Config) (near : Gps → Gps → Bool)
    (photos : List PhotoInfo) :
    (((group_photos_into_events cfg near photos).map Prod.snd).flatten).Subperm photos := by
  rw [group_eq_dictFold]
  exact (flatten_dictFold_subperm _).trans
    (group_clusters_flatten_perm cfg near photos).subperm

/-! ## Most-common-element lemmas -/

/-- Invariant of the `most_common` scan: the final answer is drawn from the
scanned elements or the seed, and its count dominates both. -/
lemma mcStep_foldl_spec (l : List String) (rest : List String) :
    ∀ (acc : Option String) (b : String), rest.foldl (mcStep l) acc = some b →
      ((b ∈ rest ∨ acc = some b) ∧
       (∀ s ∈ rest, l.count s ≤ l.count b) ∧
       (∀ a, acc = some a → l.count a ≤ l.count b)) := by
  induction rest with
  | nil =>
    intro acc b h
    refine ⟨Or.inr h, by simp, fun a ha => ?_⟩
    rw [ha] at h
    rw [Option.some.inj h]
  | cons s rest ih =>
    intro acc b h
    rw [List.foldl_cons] at h
    rcases ih (mcStep l acc s) b h with ⟨h1, h2, h3⟩
    cases acc with
    | none =>
      have hstep : mcStep l none s = some s := rfl
      rw [hstep] at h1 h3
      have hs : l.count s ≤ l.count b := h3 s rfl
      refine ⟨?_, ?_, fun a ha => by cases ha⟩
      · rcases h1 with h1 | h1
        · exact Or.inl (List.mem_cons_of_mem _ h1)
        · exact Or.inl (Option.some.inj h1 ▸ List.mem_cons_self _ _)
      · intro x hx
        rcases List.mem_cons.mp hx with he | hm
        · rw [he]; exact hs
        · exact h2 x hm
    | some c =>
      by_cases hlt : l.count c < l.count s
      · have hstep : mcStep l (some c) s = some s := by simp [mcStep, hlt]
        rw [hstep] at h1 h3
        have hs : l.count s ≤ l.count b := h3 s rfl
        refine ⟨?_, ?_, ?_⟩
        · rcases h1 with h1 | h1
          · exact Or.inl (List.mem_cons_of_mem _ h1)
          · exact Or.inl (Option.some.inj h1 ▸ List.mem_cons_self _ _)
        · intro x hx
          rcases List.mem_cons.mp hx with he | hm
          · rw [he]; exact hs
          · exact h2 x hm
        · intro a ha
          rw [← Option.some.inj ha]
          exact le_trans (le_of_lt hlt) hs
      · have hstep : mcStep l (some c) s = some c := by simp [mcStep, hlt]
        rw [hstep] at h1 h3
        have hc : l.count c ≤ l.count b := h3 c rfl
        refine ⟨?_, ?_, ?_⟩
        · rcases h1 with h1 | h1
          · exact Or.inl (List.mem_cons_of_mem _ h1)
          · exact Or.inr h1
        · intro x hx
          rcases List.mem_cons.mp hx with he | hm
          · rw [he]; exact le_trans (Nat.le_of_not_lt hlt) hc
          · exact h2 x hm
        · intro a ha
          rw [← Option.some.inj ha]
          exact hc

/-- The most common element is an element. -/
lemma mostCommon_mem {l : List String} {b : String} (h : mostCommon l = some b) :
    b ∈ l := by
  rcases mcStep_foldl_spec l l none b h with ⟨h1, _, _⟩
  rcases h1 with h1 | h1
  · exact h1
  · cases h1

/-- The most common element has maximal count. -/
lemma mostCommon_maximal {l : List String} {b : String} (h : mostCommon l = some b) :
    ∀ s ∈ l, l.count s ≤ l.count b :=
  (mcStep_foldl_spec l l none b h).2.1

/-- The integer acceptance test is exactly the rational threshold
`count >= max(1, 0.3 * len)` of the source. -/
lemma dominantThreshold_iff (count len : Nat) :
    dominantThreshold count len = true ↔
      max 1 ((3 : ℚ)/10 * len) ≤ (count : ℚ) := by
  unfold dominantThreshold
  rw [decide_eq_true_iff]
  constructor
  · intro h
    rcases max_le_iff.mp h with ⟨ha, hb⟩
    refine max_le_iff.mpr ⟨?_, ?_⟩
    · exact Nat.one_le_cast.mpr (by omega)
    · rw [div_mul_eq_mul_div, div_le_iff₀ (by norm_num : (0:ℚ) < 10)]
      have hcast : ((3 * len : Nat) : ℚ) ≤ ((10 * count : Nat) : ℚ) := by
        exact_mod_cast hb
      push_cast at hcast ⊢
      linarith
  · intro h
    rcases max_le_iff.mp h with ⟨ha, hb⟩
    have h1 : 1 ≤ count := Nat.one_le_cast.mp ha
    rw [div_mul_eq_mul_div, div_le_iff₀ (by norm_num : (0:ℚ) < 10)] at hb
    have h2 : 3 * len ≤ count * 10 := by exact_mod_cast hb
    refine max_le_iff.mpr ⟨by omega, by omega⟩

/-! ## C8: the dominant-location rule -/

/-- C8: the dominant location is `None` whenever geocoding was not requested;
when it is `some loc`, `loc` is a most frequent non-empty place name among
the members and meets the 30 % threshold `count >= max(1, 0.3 * memberCount)`;
when every place name misses the threshold the result is `None`; and on ten
photos, three "Berlin" tags are accepted while two are not. -/
theorem dominant_location_threshold :
    (∀ photos, get_dominant_location false photos = none) ∧
    (∀ photos loc, get_dominant_location true photos = some loc →
      loc ∈ photos.filterMap truthyLoc ∧
      (∀ s ∈ photos.filterMap truthyLoc,
        (photos.filterMap truthyLoc).count s ≤ (photos.filterMap truthyLoc).count loc) ∧
      max 1 ((3 : ℚ)/10 * photos.length) ≤ ((photos.filterMap truthyLoc).count loc : ℚ)) ∧
    (∀ photos, (∀ s ∈ photos.filterMap truthyLoc,
        ((photos.filterMap truthyLoc).count s : ℚ) < max 1 ((3 : ℚ)/10 * photos.length)) →
      get_dominant_location true photos = none) ∧
    get_dominant_location true ex3of10 = some "Berlin" ∧
    get_dominant_location true ex2of10 = none := by
  refine ⟨fun photos => rfl, ?_, ?_, by decide, by decide⟩
  · intro photos loc h
    unfold get_dominant_location at h
    rw [if_neg (by simp)] at h
    cases hmc : mostCommon (photos.filterMap truthyLoc) with
    | none => simp only [hmc] at h; cases h
    | some m =>
      simp only [hmc] at h
      by_cases hth :
          dominantThreshold ((photos.filterMap truthyLoc).count m) photos.length = true
      · rw [if_pos hth] at h
        rw [← Option.some.inj h]
        exact ⟨mostCommon_mem hmc, mostCommon_maximal hmc,
          (dominantThreshold_iff _ _).mp hth⟩
      · rw [if_neg hth] at h
        cases h
  · intro photos hlt
    unfold get_dominant_location
    rw [if_neg (by simp)]
    cases hmc : mostCommon (photos.filterMap truthyLoc) with
    | none => simp only [hmc]
    | some m =>
      have hnth :
          ¬ dominantThreshold ((photos.filterMap truthyLoc).count m) photos.length = true := by
        rw [dominantThreshold_iff]
        exact not_le.mpr (hlt m (mostCommon_mem hmc))
      simp only [hmc, if_neg hnth]

/-- Witness for C8 at a concrete input: "Berlin" on 3 of 10 photos is a member
tag meeting the threshold. -/
theorem dominant_location_threshold_witness :
    "Berlin" ∈ ex3of10.filterMap truthyLoc ∧
    max 1 ((3 : ℚ)/10 * ex3of10.length) ≤ ((ex3of10.filterMap truthyLoc).count "Berlin" : ℚ) := by
  have h := dominant_location_threshold.2.1 ex3of10 "Berlin" (by decide)
  exact ⟨h.1, h.2.2⟩

/-! ## C1: the three-way geo membership rule -/

/-- C1: for a record `r` that satisfies the time criterion against the open
cluster: if `r` has GPS and some GPS-bearing member is in range, `r` is
appended; if `r` has GPS, no member is in range, and the cluster has at least
one GPS-bearing member, the cluster is closed and a new one starts with `r`;
if the cluster has no GPS-bearing member at all, `r` is appended regardless of
its coordinates. (`near` stands for the haversine comparison
`calculate_distance _ _ <= geo_radius_km`.) -/
theorem membership_three_way_rule (cfg : Config) (near : Gps → Gps → Bool)
    (st : ClusterState) (p : PhotoInfo) (g : Gps)
    (hcur : st.current ≠ [])
    (htime : diffDays p.datetime st.start ≤ cfg.event_max_days) :
    (p.gps_coords = some g → (∃ q ∈ st.current, gpsNear near g q = true) →
      stepPhoto cfg near st p = { st with current := st.current ++ [p] }) ∧
    (p.gps_coords = some g → (∀ q ∈ st.current, gpsNear near g q = false) →
      (∃ q ∈ st.current, q.gps_coords.isSome = true) →
      stepPhoto cfg near st p =
        { closeCluster cfg st with current := [p], start := p.datetime }) ∧
    ((∀ q ∈ st.current, q.gps_coords = none) →
      stepPhoto cfg near st p = { st with current := st.current ++ [p] }) := by
  have hne : st.current.isEmpty = false := by
    simpa [List.isEmpty_iff] using hcur
  refine ⟨?_, ?_, ?_⟩
  · rintro hg ⟨q, hq, hnear⟩
    have hb : belongsToEvent cfg near st.current st.start p = true := by
      simp only [belongsToEvent, if_pos htime, hg]
      have hany : st.current.any (gpsNear near g) = true :=
        List.any_eq_true.mpr ⟨q, hq, hnear⟩
      simp [hany]
    simp [stepPhoto, hne, hb]
  · rintro hg hfar ⟨q, hq, hgps⟩
    have hb : belongsToEvent cfg near st.current st.start p = false := by
      simp only [belongsToEvent, if_pos htime, hg]
      have h1 : st.current.any (gpsNear near g) = false := by
        rw [List.any_eq_false]
        intro x hx
        simp [hfar x hx]
      have h2 : st.current.any (fun q => q.gps_coords.isSome) = true :=
        List.any_eq_true.mpr ⟨q, hq, hgps⟩
      simp [h1, h2]
    simp [stepPhoto, hne, hb]
  · intro hall
    have hb : belongsToEvent cfg near st.current st.start p = true := by
      simp only [belongsToEvent, if_pos htime]
      cases hpg : p.gps_coords with
      | none => rfl
      | some g' =>
        have h1 : st.current.any (gpsNear near g') = false := by
          rw [List.any_eq_false]
          intro x hx
          simp [gpsNear, hall x hx]
        have h2 : st.current.any (fun q => q.gps_coords.isSome) = false := by
          rw [List.any_eq_false]
          intro x hx
          simp [hall x hx]
        simp [h1, h2]
    simp [stepPhoto, hne, hb]

/-- Witness for C1 at a concrete input (the geo-veto branch): an in-time
GPS-bearing photo with no in-range peer is rejected from a cluster that has a
GPS-bearing member, closing it. -/
theorem membership_three_way_rule_witness :
    stepPhoto cfgMin10 nearNone stGeo pg2 =
      { closeCluster cfgMin10 stGeo with current := [pg2], start := pg2.datetime } :=
  (membership_three_way_rule cfgMin10 nearNone stGeo pg2 (50, 50) (by decide)
      (by decide)).2.1 rfl (by decide) ⟨pg1, by decide, by decide⟩

/-! ## Planner fold characterizations -/

/-- The dry-run inner loop emits the intended pairs and creates nothing. -/
lemma movePhotoFold_dry (folder : String) (ps : List PhotoInfo) :
    ∀ (pairs : List (String × String)) (existing : List String),
      ps.foldl (movePhotoFold true folder) (pairs, existing) =
        (pairs ++ ps.map (fun p =>
          (srcPath p, folder ++ "/" ++ p.filepath.stem ++ p.filepath.ext)), existing) := by
  induction ps with
  | nil =>
    intro pairs existing
    simp
  | cons p ps ih =>
    intro pairs existing
    rw [List.foldl_cons]
    show ps.foldl (movePhotoFold true folder)
      (pairs ++ [(srcPath p, folder ++ "/" ++ p.filepath.stem ++ p.filepath.ext)],
        existing) = _
    rw [ih]
    simp

/-- An untaken destination is kept unchanged by collision resolution. -/
lemma resolveTarget_free (existing : List String) (folder stem ext : String)
    (h : folder ++ "/" ++ stem ++ ext ∉ existing) :
    resolveTarget existing folder stem ext = folder ++ "/" ++ stem ++ ext := by
  unfold resolveTarget
  rw [if_neg h]

/-- The execute inner loop, when no planned destination is taken and the
planned destinations are pairwise distinct, emits exactly the intended pairs
and marks them as created. -/
lemma movePhotoFold_exec (folder : String) (ps : List PhotoInfo) :
    ∀ (pairs : List (String × String)) (existing : List String),
      (∀ p ∈ ps, folder ++ "/" ++ p.filepath.stem ++ p.filepath.ext ∉ existing) →
      (ps.map (fun p => folder ++ "/" ++ p.filepath.stem ++ p.filepath.ext)).Nodup →
      ps.foldl (movePhotoFold false folder) (pairs, existing) =
        (pairs ++ ps.map (fun p =>
          (srcPath p, folder ++ "/" ++ p.filepath.stem ++ p.filepath.ext)),
          (ps.map (fun p =>
            folder ++ "/" ++ p.filepath.stem ++ p.filepath.ext)).reverse ++ existing) := by
  induction ps with
  | nil =>
    intro pairs existing h1 h2
    simp
  | cons p ps ih =>
    intro pairs existing h1 h2
    rw [List.foldl_cons]
    have hfree : folder ++ "/" ++ p.filepath.stem ++ p.filepath.ext ∉ existing :=
      h1 p (List.mem_cons_self _ _)
    have hstep : movePhotoFold false folder (pairs, existing) p =
        (pairs ++ [(srcPath p, folder ++ "/" ++ p.filepath.stem ++ p.filepath.ext)],
          (folder ++ "/" ++ p.filepath.stem ++ p.filepath.ext) :: existing) := by
      unfold movePhotoFold
      rw [if_neg Bool.false_ne_true,
        resolveTarget_free existing folder p.filepath.stem p.filepath.ext hfree]
    rw [hstep, List.map_cons] at *
    rcases List.nodup_cons.mp h2 with ⟨hnm, hnd⟩
    have h1' : ∀ q ∈ ps, folder ++ "/" ++ q.filepath.stem ++ q.filepath.ext ∉
        (folder ++ "/" ++ p.filepath.stem ++ p.filepath.ext) :: existing := by
      intro q hq hmem
      rcases List.mem_cons.mp hmem with he | hs
      · exact hnm (he ▸ List.mem_map_of_mem _ hq)
      · exact h1 q (List.mem_cons_of_mem _ hq) hs
    rw [ih _ _ h1' hnd]
    simp [List.append_assoc]

/-- The dry-run plan is the intended pair list. -/
lemma organize_dry (targetDir : String) (events : List (String × List PhotoInfo)) :
    ∀ (pairs : List (String × String)) (existing : List String),
      (events.foldl (fun acc ev =>
        ev.2.foldl (movePhotoFold true (eventFolder targetDir ev.1)) acc)
        (pairs, existing)) = (pairs ++ plannedPairs targetDir events, existing) := by
  induction events with
  | nil =>
    intro pairs existing
    simp [plannedPairs]
  | cons ev evs ih =>
    intro pairs existing
    rw [List.foldl_cons, movePhotoFold_dry, ih]
    simp [plannedPairs, List.append_assoc]

/-- The execute plan coincides with the intended pair list when no planned
destination pre-exists and the planned destinations are pairwise distinct. -/
lemma organize_exec (targetDir : String) (events : List (String × List PhotoInfo)) :
    ∀ (pairs : List (String × String)) (existing : List String),
      (∀ d ∈ plannedDests targetDir events, d ∉ existing) →
      (plannedDests targetDir events).Nodup →
      (events.foldl (fun acc ev =>
        ev.2.foldl (movePhotoFold false (eventFolder targetDir ev.1)) acc)
        (pairs, existing)) =
        (pairs ++ plannedPairs targetDir events,
          (plannedDests targetDir events).reverse ++ existing) := by
  induction events with
  | nil =>
    intro pairs existing h1 h2
    simp [plannedPairs, plannedDests]
  | cons ev evs ih =>
    intro pairs existing h1 h2
    have hD : plannedDests targetDir (ev :: evs) =
        ev.2.map (fun p =>
          eventFolder targetDir ev.1 ++ "/" ++ p.filepath.stem ++ p.filepath.ext) ++
          plannedDests targetDir evs := by
      simp [plannedDests]
    rw [hD] at h1 h2
    rcases List.nodup_append.mp h2 with ⟨hbatch, hrest, hdisj⟩
    rw [List.foldl_cons,
      movePhotoFold_exec (eventFolder targetDir ev.1) ev.2 pairs existing
        (fun p hp => h1 _ (List.mem_append.mpr (Or.inl (List.mem_map_of_mem _ hp))))
        hbatch]
    have h1' : ∀ d ∈ plannedDests targetDir evs,
        d ∉ (ev.2.map (fun p =>
          eventFolder targetDir ev.1 ++ "/" ++ p.filepath.stem ++ p.filepath.ext)).reverse ++
          existing := by
      intro d hd hmem
      rcases List.mem_append.mp hmem with hrev | hex
      · exact hdisj (List.mem_reverse.mp hrev) hd
      · exact h1 d (List.mem_append.mpr (Or.inr hd)) hex
    rw [ih _ _ h1' hrest]
    simp [plannedPairs, plannedDests, List.append_assoc, List.reverse_append]

/-! ## C7: preview versus execute plans -/

/-- C7 counterexample: two distinct-content photos sharing the basename
`a.jpg` inside one group, with an empty target tree. The preview plan sends
both to the same destination, while the execute plan suffixes the second to
`a_1.jpg`: the two pair lists differ. -/
theorem plan_execute_divergence :
    organize_photos true "T" [] evCollide =
      [("s1/a.jpg", "T/2021/01-01/a.jpg"), ("s2/a.jpg", "T/2021/01-01/a.jpg")] ∧
    organize_photos false "T" [] evCollide =
      [("s1/a.jpg", "T/2021/01-01/a.jpg"), ("s2/a.jpg", "T/2021/01-01/a_1.jpg")] ∧
    organize_photos true "T" [] evCollide ≠ organize_photos false "T" [] evCollide :=
  ⟨by decide, by decide, by decide⟩

/-- C7 (amended): destination collisions are resolved — in execute mode
only — by appending an incrementing numeric suffix before the extension; and
whenever no collision arises (the planned destinations are pairwise distinct
and none pre-exists in the target), the preview pair list and the execute
pair list are identical. -/
theorem plan_execute_agreement (targetDir : String) (existing0 : List String)
    (events : List (String × List PhotoInfo))
    (hnodup : (plannedDests targetDir events).Nodup)
    (hfree : ∀ d ∈ plannedDests targetDir events, d ∉ existing0) :
    organize_photos false targetDir existing0 events =
      organize_photos true targetDir existing0 events := by
  unfold organize_photos
  rw [organize_exec targetDir events [] existing0 hfree hnodup,
    organize_dry targetDir events [] existing0]

/-- Witness for C7 (amended) at a concrete input with distinct destinations:
preview and execute produce the same pair list. -/
theorem plan_execute_agreement_witness :
    organize_photos false "T" [] evDistinct = organize_photos true "T" [] evDistinct :=
  plan_execute_agreement "T" [] evDistinct (by decide) (by decide)

/-! ## C5: first-seen deduplication -/

/-- C5: after scanning, content hashes are unique across retained records;
a file whose hash is new relative to every earlier file becomes the retained
`PhotoInfo` while a file whose hash already occurred earlier lands in the
duplicate set instead of among the records; and no duplicate path reaches any
clustering output or move plan. -/
theorem dedup_first_seen (files : List FileEntry)
    (hpaths : (files.map (fun f => f.filepath.full)).Nodup) :
    ((scan_photos files).1.map (fun p => p.file_hash)).Nodup ∧
    (∀ l1 f l2, files = l1 ++ f :: l2 →
      (get_file_hash f ∉ l1.map get_file_hash →
        mkPhotoInfo f (get_file_hash f) ∈ (scan_photos files).1) ∧
      (get_file_hash f ∈ l1.map get_file_hash →
        f.filepath.full ∈ (scan_photos files).2 ∧
        f.filepath.full ∉ (scan_photos files).1.map (fun p => p.filepath.full))) ∧
    (∀ cfg near ev, ev ∈ group_photos_into_events cfg near (scan_photos files).1 →
      ∀ p ∈ ev.2, p.filepath.full ∉ (scan_photos files).2) ∧
    (∀ dryRun targetDir ex0 cfg near s d,
      (s, d) ∈ organize_photos dryRun targetDir ex0
        (group_photos_into_events cfg near (scan_photos files).1) →
      s ∉ (scan_photos files).2) := by
  have hperm := scanPhotos_path_perm files []
  have hnod : ((scan_photos files).1.map (fun p => p.filepath.full) ++
      (scan_photos files).2).Nodup := hperm.nodup_iff.mpr hpaths
  have hdisj := List.disjoint_of_nodup_append hnod
  have hmem_photos : ∀ p ∈ (scan_photos files).1,
      p.filepath.full ∉ (scan_photos files).2 := by
    intro p hp
    exact hdisj (List.mem_map_of_mem _ hp)
  refine ⟨(scanPhotos_hash_nodup files []).1, ?_, ?_, ?_⟩
  · intro l1 f l2 hsplit
    constructor
    · intro hnew
      rw [hsplit]
      exact scanPhotos_photo_mem l1 f l2 [] (by simp) hnew
    · intro hdup
      have hd : f.filepath.full ∈ (scan_photos files).2 := by
        rw [hsplit]
        exact scanPhotos_dup_mem l1 f l2 [] (Or.inr hdup)
      exact ⟨hd, fun hmem => hdisj hmem hd⟩
  · intro cfg near ev hev p hp
    have hflat : p ∈ ((group_photos_into_events cfg near (scan_photos files).1).map
        Prod.snd).flatten :=
      List.mem_flatten.mpr ⟨ev.2, List.mem_map_of_mem Prod.snd hev, hp⟩
    exact hmem_photos p ((group_flatten_subperm cfg near _).subset hflat)
  · intro dryRun targetDir ex0 cfg near s d hmem
    have hmem' : (s, d) ∈ ((group_photos_into_events cfg near
        (scan_photos files).1).foldl
        (fun acc ev =>
          ev.2.foldl (movePhotoFold dryRun (eventFolder targetDir ev.1)) acc)
        ([], ex0)).1 := hmem
    rcases organize_photos_mem_src dryRun targetDir _ ([], ex0) s d hmem' with
      hin | ⟨ev, hev, p, hp, he⟩
    · cases hin
    · rw [he]
      have hflat : p ∈ ((group_photos_into_events cfg near (scan_photos files).1).map
          Prod.snd).flatten :=
        List.mem_flatten.mpr ⟨ev.2, List.mem_map_of_mem Prod.snd hev, hp⟩
      exact hmem_photos p ((group_flatten_subperm cfg near _).subset hflat)

/-- Witness for C5 at a concrete input: of two files with identical content,
the first becomes the retained record and the second's path is reported as a
duplicate. -/
theorem dedup_first_seen_witness :
    mkPhotoInfo fA (get_file_hash fA) ∈ (scan_photos [fA, fB]).1 ∧
    fB.filepath.full ∈ (scan_photos [fA, fB]).2 := by
  have h := dedup_first_seen [fA, fB] (by decide)
  exact ⟨(h.2.1 [] fA [fB] rfl).1 (by decide), ((h.2.1 [fA] fB [] rfl).2 (by decide)).1⟩

/-! ## C9: empty-string hash on failure -/

/-- C9: a failed hash computation yields the empty-string hash instead of
aborting the scan; a hash-failed file with no earlier empty-hash file becomes
a retained record with `contentHash = ""`; and any hash-failed file preceded
by another hash-failed file is recorded as its duplicate. -/
theorem empty_hash_collision :
    (∀ f : FileEntry, f.hashResult = none → get_file_hash f = "") ∧
    (∀ l1 (f : FileEntry) l2, f.hashResult = none → "" ∉ l1.map get_file_hash →
      mkPhotoInfo f "" ∈ (scan_photos (l1 ++ f :: l2)).1) ∧
    (∀ l1 (f f2 : FileEntry) l2, f ∈ l1 → f.hashResult = none → f2.hashResult = none →
      f2.filepath.full ∈ (scan_photos (l1 ++ f2 :: l2)).2) := by
  refine ⟨?_, ?_, ?_⟩
  · intro f hf
    simp [get_file_hash, hf]
  · intro l1 f l2 hf hne
    have h0 : get_file_hash f = "" := by simp [get_file_hash, hf]
    have h := scanPhotos_photo_mem l1 f l2 [] (by simp) (by rw [h0]; exact hne)
    rwa [h0] at h
  · intro l1 f f2 l2 hfl hf hf2
    have h0 : get_file_hash f2 = "" := by simp [get_file_hash, hf2]
    refine scanPhotos_dup_mem l1 f2 l2 [] (Or.inr ?_)
    rw [h0]
    exact List.mem_map.mpr ⟨f, hfl, by simp [get_file_hash, hf]⟩

/-- Witness for C9 at a concrete input: two hash-failed files collide — the
first is retained with the empty hash, the second is reported as a
duplicate. -/
theorem empty_hash_collision_witness :
    mkPhotoInfo fErr1 "" ∈ (scan_photos [fErr1, fErr2]).1 ∧
    fErr2.filepath.full ∈ (scan_photos [fErr1, fErr2]).2 :=
  ⟨empty_hash_collision.2.1 [] fErr1 [fErr2] rfl (by decide),
    empty_hash_collision.2.2 [fErr1] fErr1 fErr2 [] (by decide) rfl rfl⟩

/-! ## C10: partition of the input, up to name overwrites -/

/-- C10 counterexample: two in-time photos whose GPS coordinates veto each
other form two clusters that derive the same name `2021/01-01`; the Python
dict assignment makes the second overwrite the first, so `pg1` is absent from
the returned mapping — the output is not a partition of the input. -/
theorem clustering_name_overwrite :
    group_photos_into_events cfg3 nearNone [pg1, pg2] = [("2021/01-01", [pg2])] ∧
    pg1 ≠ pg2 := ⟨by decide, by decide⟩

/-- C10 (amended): the members of the returned mapping always form a
sub-permutation of the input (no photo is invented or duplicated), and when
the derived names of the closed clusters are pairwise distinct the mapping's
members are exactly a permutation of the input — a partition into its member
lists. A name collision makes the later cluster overwrite the earlier one. -/
theorem clustering_partition (cfg : Config) (near : Gps → Gps → Bool)
    (photos : List PhotoInfo) :
    (((group_photos_into_events cfg near photos).map Prod.snd).flatten).Subperm photos ∧
    (((group_clusters cfg near photos).map Prod.fst).Nodup →
      (((group_photos_into_events cfg near photos).map Prod.snd).flatten).Perm photos) := by
  constructor
  · exact group_flatten_subperm cfg near photos
  · intro hnd
    rw [group_eq_dictFold, dictFold_eq_self _ hnd]
    exact group_clusters_flatten_perm cfg near photos

/-- Witness for C10 (amended) at a concrete input with distinct cluster
names: the output members are a permutation of the input. -/
theorem clustering_partition_witness :
    (((group_photos_into_events cfg3 nearNone [ph 1 12, ph 5 12]).map
      Prod.snd).flatten).Perm [ph 1 12, ph 5 12] :=
  (clustering_partition cfg3 nearNone [ph 1 12, ph 5 12]).2 (by decide)

/-! ## C6: timestamp priority chain -/

/-- C6: timestamp resolution is total (it returns a `DateTime` for every
file) and follows embedded metadata > filename pattern > filesystem
modification time; in particular an embedded capture time always wins, and
the modification time is used only when the other two sources yield
nothing. -/
theorem timestamp_priority_chain (f : FileEntry) :
    (∀ t1, f.exif_datetime = some t1 → get_best_datetime f = t1) ∧
    (∀ t2, f.exif_datetime = none → f.filename_datetime = some t2 →
      get_best_datetime f = t2) ∧
    (f.exif_datetime = none → f.filename_datetime = none →
      get_best_datetime f = f.mtime) := by
  refine ⟨?_, ?_, ?_⟩
  · intro t1 h1
    simp [get_best_datetime, h1]
  · intro t2 h1 h2
    simp [get_best_datetime, h1, h2]
  · intro h1 h2
    simp [get_best_datetime, h1, h2]

/-- Witness for C6 at a concrete input: the embedded time T1 wins although the
filename encodes a different T2. -/
theorem timestamp_priority_chain_witness :
    get_best_datetime fClash = dJan 2 9 ∧
      fClash.filename_datetime = some ⟨2021, 6, 6, 10, 0, 0⟩ ∧
      (⟨2021, 6, 6, 10, 0, 0⟩ : DateTime) ≠ dJan 2 9 :=
  ⟨(timestamp_priority_chain fClash).1 (dJan 2 9) rfl, rfl, by decide⟩

end PhotoOrg
